import Mathlib

/-!
Verification development for KrowneSync: a product-catalog reconciliation
tool.  The frontend (React) services under `src/frontend` are embedded
directly from the JavaScript source; the backend reconciliation engine
(Normalizer, Matcher, Differ, Job Orchestrator, Report Assembler) is not
part of the shipped sources, so those components are modelled from the
specification, as indicated on each definition.
-/

namespace KrowneSync

open List (Perm)

/-- Modelled from the spec: §3 CanonicalProduct — the unit of comparison
produced by the Normalizer (backend `data_comparator.py`, not under src/).
`price` is a decimal number, absent meaning unknown; `rawIndex` is the
position in the originating set, used for stable ordering and tie-breaks. -/
structure CanonicalProduct where
  identifier : Option String
  name : String
  price : Option Rat
  description : Option String
  category : Option String
  rawIndex : Nat
deriving DecidableEq, Repr

/-- Modelled from the spec: §3 MatchPair match strategies. -/
inductive Strategy where
  | EXACT_ID
  | NORMALIZED_NAME
  | FUZZY_NAME
  | UNMATCHED
deriving DecidableEq, Repr

/-- Modelled from the spec: §3 MatchPair — output of the Matcher. -/
structure MatchPair where
  sourceProduct : Option CanonicalProduct
  targetProduct : Option CanonicalProduct
  matchStrategy : Strategy
  matchScore : Rat
deriving DecidableEq, Repr

/-- Modelled from the spec: reconciliation configuration (fuzzy-name
similarity threshold, default 0.85; price epsilon, default 0.01;
description comparison mode). -/
structure Config where
  fuzzyThreshold : Rat
  priceEpsilon : Rat
  descriptionExact : Bool
  descriptionThreshold : Rat
deriving DecidableEq, Repr

/-- The default configuration from the spec (§4.2, §4.3). -/
def defaultConfig : Config :=
  { fuzzyThreshold := 85/100
    priceEpsilon := 1/100
    descriptionExact := true
    descriptionThreshold := 85/100 }

/-- Lower-case a string character by character. -/
def lowerString (s : String) : String :=
  String.mk (s.toList.map Char.toLower)

/-- Collapse whitespace runs, trim, for normalised-name comparison. -/
def collapseSpaces (cs : List Char) : List Char :=
  match cs with
  | [] => []
  | c :: rest =>
    let tail := collapseSpaces rest
    if c = ' ' then
      match tail with
      | [] => []
      | d :: _ => if d = ' ' then tail else ' ' :: tail
    else c :: tail

/-- Modelled from the spec: §4.2 normalised name (case-fold, collapse
whitespace, strip punctuation). -/
def normName (p : CanonicalProduct) : String :=
  String.mk (collapseSpaces ((lowerString p.name).toList.filter
    (fun c => c.isAlphanum ∨ c = ' ')))

/-- Modelled from the spec: §4.2 normalised identifier (case- and
whitespace-insensitive); an empty or missing identifier never matches. -/
def normId (p : CanonicalProduct) : Option String :=
  match p.identifier with
  | none => none
  | some i =>
    let k := String.mk ((lowerString i).toList.filter (fun c => c ≠ ' '))
    if k = "" then none else some k

/-- Number of records in a catalog carrying a given normalised identifier. -/
def countId (ps : List CanonicalProduct) (i : String) : Nat :=
  (ps.filter (fun p => normId p = some i)).length

/-- Generic one-pair-at-a-time matching driver: `pick` proposes a
(source, target) pair drawn from the remaining records; the driver removes
both and recurses.  Each strategy of the spec's cascade (§4.2) is an
instance of this driver with its own `pick`.  Fuel bounds the recursion by
the number of source records. -/
def matchLoop
    (pick : List CanonicalProduct → List CanonicalProduct →
      Option (CanonicalProduct × CanonicalProduct)) :
    Nat → List CanonicalProduct → List CanonicalProduct →
      List (CanonicalProduct × CanonicalProduct) ×
        List CanonicalProduct × List CanonicalProduct
  | 0, ss, ts => ([], ss, ts)
  | fuel + 1, ss, ts =>
    match pick ss ts with
    | none => ([], ss, ts)
    | some (s, t) =>
      if s ∈ ss ∧ t ∈ ts then
        let r := matchLoop pick fuel (ss.erase s) (ts.erase t)
        ((s, t) :: r.1, r.2)
      else ([], ss, ts)

/-- The paired sources of a `matchLoop` run, together with the leftover
sources, are a permutation of the input sources; symmetrically for
targets.  This holds for every `pick`. -/
theorem matchLoop_perm (pick) : ∀ (fuel : Nat) (ss ts : List CanonicalProduct),
    List.Perm ((matchLoop pick fuel ss ts).1.map Prod.fst ++ (matchLoop pick fuel ss ts).2.1) ss ∧
    List.Perm ((matchLoop pick fuel ss ts).1.map Prod.snd ++ (matchLoop pick fuel ss ts).2.2) ts := by
  intro fuel
  induction fuel with
  | zero => intro ss ts; simp [matchLoop]
  | succ n ih =>
    intro ss ts
    unfold matchLoop
    cases hp : pick ss ts with
    | none => simp
    | some st =>
      obtain ⟨s, t⟩ := st
      by_cases hm : s ∈ ss ∧ t ∈ ts
      · simp only [hm, if_true, List.map_cons, List.cons_append]
        obtain ⟨ihs, iht⟩ := ih (ss.erase s) (ts.erase t)
        exact ⟨(ihs.cons s).trans (List.perm_cons_erase hm.1).symm,
          (iht.cons t).trans (List.perm_cons_erase hm.2).symm⟩
      · simp [hm]

/-- Case/whitespace-insensitive key used for identifier and category
comparison. -/
def normKey (s : String) : String :=
  String.mk ((lowerString s).toList.filter (fun c => c ≠ ' '))

/-- Modelled from the spec: §4.2 strategy 1 (EXACT_ID) — an identifier
present in both sets with exactly one candidate on each side yields a
pair; ambiguous identifiers fall through.  Picks the first such source in
catalog order. -/
def pickExactId (ss ts : List CanonicalProduct) :
    Option (CanonicalProduct × CanonicalProduct) :=
  ss.findSome? (fun s =>
    match normId s with
    | none => none
    | some i =>
      if countId ss i = 1 ∧ countId ts i = 1 then
        (ts.find? (fun t => normId t == some i)).map (fun t => (s, t))
      else none)

/-- The candidate with the least `rawIndex` (ties to the earlier element),
used for the spec's deterministic tie-break. -/
def minByRawIndex : List CanonicalProduct → Option CanonicalProduct
  | [] => none
  | p :: ps =>
    match minByRawIndex ps with
    | none => some p
    | some q => if p.rawIndex ≤ q.rawIndex then some p else some q

/-- Modelled from the spec: §4.2 strategy 2 (NORMALIZED_NAME) — exact
collisions on normalised name pair 1:1, ties among same-name candidates
broken by ascending `rawIndex` on both sides. -/
def pickNormName (ss ts : List CanonicalProduct) :
    Option (CanonicalProduct × CanonicalProduct) :=
  ss.findSome? (fun s =>
    (minByRawIndex (ts.filter (fun t => normName t == normName s))).map
      (fun t => (s, t)))

/-- Number of characters of the first list that can be matched one-to-one
against characters of the second. -/
def commonCount : List Char → List Char → Nat
  | [], _ => 0
  | c :: cs, ds => if c ∈ ds then 1 + commonCount cs (ds.erase c) else commonCount cs ds

/-- Modelled from the spec: §4.2 normalised string-similarity score in
[0,1] (the spec fixes only that the score is a deterministic normalised
ratio; this model uses the matched-character ratio). -/
def similarity (a b : String) : Rat :=
  let la := a.toList
  let lb := b.toList
  if la.length + lb.length = 0 then 1
  else (2 * (commonCount la lb : Rat)) / ((la.length : Rat) + (lb.length : Rat))

/-- Modelled from the spec: §4.2 fuzzy matching is restricted to the same
`family`/`category` when both sides provide one. -/
def catCompatible (s t : CanonicalProduct) : Bool :=
  match s.category, t.category with
  | some a, some b => normKey a == normKey b
  | _, _ => true

/-- All category-compatible source/target pairs with their similarity
scores, in catalog order. -/
def fuzzyCandidates (ss ts : List CanonicalProduct) :
    List (CanonicalProduct × CanonicalProduct × Rat) :=
  ss.foldr (fun s acc =>
    ((ts.filter (fun t => catCompatible s t)).map
      (fun t => (s, t, similarity (normName s) (normName t)))) ++ acc) []

/-- Modelled from the spec: §4.2 strategy 3 (FUZZY_NAME) — greedily accept
the highest-scoring category-compatible pair at or above the threshold;
ties at equal top score go to the earliest candidate (ascending
`rawIndex`). -/
def pickFuzzy (cfg : Config) (ss ts : List CanonicalProduct) :
    Option (CanonicalProduct × CanonicalProduct) :=
  ((fuzzyCandidates ss ts).foldl (fun best c =>
    if cfg.fuzzyThreshold ≤ c.2.2 then
      match best with
      | none => some c
      | some b => if b.2.2 < c.2.2 then some c else some b
    else best) none).map (fun c => (c.1, c.2.1))

/-- Modelled from the spec: assemble the cascade's paired records and the
unmatched residues into the final MatchPair list (§4.2 step 4): remaining
unpaired source records become MISSING_FROM_TARGET pairs, remaining
unpaired target records become TARGET_ONLY pairs, tagged UNMATCHED. -/
def assemblePairs (r1 r2 r3 : List (CanonicalProduct × CanonicalProduct))
    (leftS leftT : List CanonicalProduct) : List MatchPair :=
  r1.map (fun p => ⟨some p.1, some p.2, .EXACT_ID, 1⟩) ++
  r2.map (fun p => ⟨some p.1, some p.2, .NORMALIZED_NAME, 1⟩) ++
  r3.map (fun p =>
    ⟨some p.1, some p.2, .FUZZY_NAME, similarity (normName p.1) (normName p.2)⟩) ++
  leftS.map (fun s => ⟨some s, none, .UNMATCHED, 0⟩) ++
  leftT.map (fun t => ⟨none, some t, .UNMATCHED, 0⟩)

/-- Modelled from the spec: the three pairing stages of the cascade
(§4.2), each operating only on the records the previous stages left
unpaired.  Returns the pairs of each stage and the unpaired residues. -/
def cascade (cfg : Config) (ss ts : List CanonicalProduct) :
    (List (CanonicalProduct × CanonicalProduct) ×
      List (CanonicalProduct × CanonicalProduct) ×
      List (CanonicalProduct × CanonicalProduct)) ×
      List CanonicalProduct × List CanonicalProduct :=
  let a := matchLoop pickExactId ss.length ss ts
  let b := matchLoop pickNormName a.2.1.length a.2.1 a.2.2
  let c := matchLoop (pickFuzzy cfg) b.2.1.length b.2.1 b.2.2
  ((a.1, b.1, c.1), c.2.1, c.2.2)

/-- Modelled from the spec: §4.2 `match(sourceSet, targetSet) ->
list<MatchPair>` — the strategy cascade EXACT_ID, NORMALIZED_NAME,
FUZZY_NAME applied in order, each operating only on records not yet
paired, followed by the unmatched residues. -/
def matchCatalogs (cfg : Config) (ss ts : List CanonicalProduct) : List MatchPair :=
  assemblePairs (cascade cfg ss ts).1.1 (cascade cfg ss ts).1.2.1
    (cascade cfg ss ts).1.2.2 (cascade cfg ss ts).2.1 (cascade cfg ss ts).2.2

/-- The source records owned by a list of MatchPairs. -/
def pairSources (prs : List MatchPair) : List CanonicalProduct :=
  prs.filterMap (fun p => p.sourceProduct)

/-- The target records owned by a list of MatchPairs. -/
def pairTargets (prs : List MatchPair) : List CanonicalProduct :=
  prs.filterMap (fun p => p.targetProduct)

theorem filterMap_some_fst {α β : Type} (l : List (α × β)) :
    l.filterMap (fun x => some x.1) = l.map Prod.fst := by
  induction l with
  | nil => simp
  | cons a l ih => simp [List.filterMap_cons, ih]

theorem filterMap_some_snd {α β : Type} (l : List (α × β)) :
    l.filterMap (fun x => some x.2) = l.map Prod.snd := by
  induction l with
  | nil => simp
  | cons a l ih => simp [List.filterMap_cons, ih]

theorem filterMap_none_eq_nil {α β : Type} (l : List α) :
    l.filterMap (fun _ => (none : Option β)) = [] := by
  induction l with
  | nil => simp
  | cons a l ih => simp [List.filterMap_cons, ih]

theorem pairSources_assemblePairs (r1 r2 r3 : List (CanonicalProduct × CanonicalProduct))
    (leftS leftT : List CanonicalProduct) :
    pairSources (assemblePairs r1 r2 r3 leftS leftT) =
      r1.map Prod.fst ++ r2.map Prod.fst ++ r3.map Prod.fst ++ leftS := by
  simp [pairSources, assemblePairs, List.filterMap_append, List.filterMap_map,
    Function.comp_def, filterMap_some_fst, filterMap_some_snd, filterMap_none_eq_nil]

theorem pairTargets_assemblePairs (r1 r2 r3 : List (CanonicalProduct × CanonicalProduct))
    (leftS leftT : List CanonicalProduct) :
    pairTargets (assemblePairs r1 r2 r3 leftS leftT) =
      r1.map Prod.snd ++ r2.map Prod.snd ++ r3.map Prod.snd ++ leftT := by
  simp [pairTargets, assemblePairs, List.filterMap_append, List.filterMap_map,
    Function.comp_def, filterMap_some_fst, filterMap_some_snd, filterMap_none_eq_nil]

theorem assemblePairs_side (r1 r2 r3 : List (CanonicalProduct × CanonicalProduct))
    (leftS leftT : List CanonicalProduct) :
    ∀ p ∈ assemblePairs r1 r2 r3 leftS leftT,
      p.sourceProduct.isSome ∨ p.targetProduct.isSome := by
  intro p hp
  simp only [assemblePairs, List.mem_append, List.mem_map] at hp
  rcases hp with ((((⟨q, _, h⟩ | ⟨q, _, h⟩) | ⟨q, _, h⟩) | ⟨q, _, h⟩) | ⟨q, _, h⟩) <;>
    subst h <;> simp

theorem cascade_src_perm (cfg : Config) (ss ts : List CanonicalProduct) :
    Perm ((cascade cfg ss ts).1.1.map Prod.fst ++
      ((cascade cfg ss ts).1.2.1.map Prod.fst ++
        ((cascade cfg ss ts).1.2.2.map Prod.fst ++ (cascade cfg ss ts).2.1))) ss := by
  simp only [cascade]
  exact ((((matchLoop_perm (pickFuzzy cfg) _ _ _).1.append_left _).trans
    (matchLoop_perm pickNormName _ _ _).1).append_left _).trans
    (matchLoop_perm pickExactId _ _ _).1

theorem cascade_tgt_perm (cfg : Config) (ss ts : List CanonicalProduct) :
    Perm ((cascade cfg ss ts).1.1.map Prod.snd ++
      ((cascade cfg ss ts).1.2.1.map Prod.snd ++
        ((cascade cfg ss ts).1.2.2.map Prod.snd ++ (cascade cfg ss ts).2.2))) ts := by
  simp only [cascade]
  exact ((((matchLoop_perm (pickFuzzy cfg) _ _ _).2.append_left _).trans
    (matchLoop_perm pickNormName _ _ _).2).append_left _).trans
    (matchLoop_perm pickExactId _ _ _).2

/-- Every source record of the input appears in exactly one MatchPair (as
a multiset, the pairs' source sides are a permutation of the source
catalog); symmetrically for targets. -/
theorem matchCatalogs_perm (cfg : Config) (ss ts : List CanonicalProduct) :
    Perm (pairSources (matchCatalogs cfg ss ts)) ss ∧
    Perm (pairTargets (matchCatalogs cfg ss ts)) ts := by
  constructor
  · rw [matchCatalogs, pairSources_assemblePairs]
    simpa [List.append_assoc] using cascade_src_perm cfg ss ts
  · rw [matchCatalogs, pairTargets_assemblePairs]
    simpa [List.append_assoc] using cascade_tgt_perm cfg ss ts

theorem length_filter_isSome_src (prs : List MatchPair) :
    (prs.filter (fun p => p.sourceProduct.isSome)).length = (pairSources prs).length := by
  induction prs with
  | nil => simp [pairSources]
  | cons p prs ih =>
    cases h : p.sourceProduct <;>
      simp [pairSources, List.filterMap_cons, List.filter_cons, h, ih]

theorem length_filter_isSome_tgt (prs : List MatchPair) :
    (prs.filter (fun p => p.targetProduct.isSome)).length = (pairTargets prs).length := by
  induction prs with
  | nil => simp [pairTargets]
  | cons p prs ih =>
    cases h : p.targetProduct <;>
      simp [pairTargets, List.filterMap_cons, List.filter_cons, h, ih]

/-- C1 (amended): for every pair of input catalogs, the MatchPairs
returned by the matcher partition the records — the source sides of the
pairs are a permutation of the source catalog (so each source record
appears in exactly one pair) and symmetrically for the target catalog;
every MatchPair has at least one side present; and the number of pairs
containing a source record equals `|sourceSet|` (symmetrically the number
of pairs containing a target record equals `|targetSet|`). -/
theorem matcher_partition (cfg : Config) (ss ts : List CanonicalProduct) :
    Perm (pairSources (matchCatalogs cfg ss ts)) ss ∧
    Perm (pairTargets (matchCatalogs cfg ss ts)) ts ∧
    (∀ p ∈ matchCatalogs cfg ss ts, p.sourceProduct.isSome ∨ p.targetProduct.isSome) ∧
    ((matchCatalogs cfg ss ts).filter (fun p => p.sourceProduct.isSome)).length = ss.length ∧
    ((matchCatalogs cfg ss ts).filter (fun p => p.targetProduct.isSome)).length = ts.length := by
  obtain ⟨hs, ht⟩ := matchCatalogs_perm cfg ss ts
  refine ⟨hs, ht, ?_, ?_, ?_⟩
  · rw [matchCatalogs]
    exact assemblePairs_side _ _ _ _ _
  · rw [length_filter_isSome_src]
    exact hs.length_eq
  · rw [length_filter_isSome_tgt]
    exact ht.length_eq

/-- A concrete record used by counterexamples and witnesses. -/
def sampleTarget : CanonicalProduct :=
  { identifier := none, name := "Widget", price := none, description := none,
    category := none, rawIndex := 0 }

/-- C1 counterexample: with an empty source catalog and one target record,
the matcher returns exactly one TARGET_ONLY pair, so the number of pairs
containing a source record (0) plus the number of target-only pairs (1)
is 1, not `|sourceSet| = 0` — the claimed count equation fails. -/
theorem matcher_count_equation_fails :
    ¬ (((matchCatalogs defaultConfig [] [sampleTarget]).filter
          (fun p => p.sourceProduct.isSome)).length +
        ((matchCatalogs defaultConfig [] [sampleTarget]).filter
          (fun p => p.sourceProduct.isNone && p.targetProduct.isSome)).length =
      ([] : List CanonicalProduct).length) := by
  decide

/-- Modelled from the spec: §3 ComparisonResult statuses. -/
inductive CompStatus where
  | MATCH
  | MISMATCH
  | MISSING_FROM_TARGET
  | TARGET_ONLY
deriving DecidableEq, Repr

/-- Modelled from the spec: §3 ComparisonResult — one row of the final
report. -/
structure ComparisonResult where
  productId : Option String
  name : String
  status : CompStatus
  differences : List String
  targetUrl : Option String
deriving DecidableEq, Repr

/-- Plain rendering of a rational for human-readable diff strings. -/
def ratStr (r : Rat) : String :=
  toString r.num ++ "/" ++ toString r.den

/-- Modelled from the spec: §4.3 name comparison — case-insensitive,
whitespace-normalised. -/
def nameDiffers (s t : CanonicalProduct) : Bool :=
  normName s ≠ normName t

/-- Modelled from the spec: §4.3 price comparison — numeric equality
within a configurable epsilon; an absent price is unknown, not zero, and
yields no field diff. -/
def priceDiffers (cfg : Config) (s t : CanonicalProduct) : Bool :=
  match s.price, t.price with
  | some a, some b => cfg.priceEpsilon < |a - b|
  | _, _ => false

/-- Modelled from the spec: §4.3 description comparison — configurable:
exact match or similarity-above-threshold. -/
def descriptionDiffers (cfg : Config) (s t : CanonicalProduct) : Bool :=
  match s.description, t.description with
  | some a, some b =>
    if cfg.descriptionExact then a ≠ b else similarity a b < cfg.descriptionThreshold
  | _, _ => false

/-- Modelled from the spec: §4.3 — each differing field appends one
human-readable entry. -/
def fieldDiffs (cfg : Config) (s t : CanonicalProduct) : List String :=
  (if nameDiffers s t then ["Name: " ++ s.name ++ " vs " ++ t.name] else []) ++
  (if priceDiffers cfg s t then
    ["Price: " ++ (s.price.map ratStr).getD "?" ++ " vs " ++ (t.price.map ratStr).getD "?"]
  else []) ++
  (if descriptionDiffers cfg s t then ["Description differs"] else [])

/-- Modelled from the spec: §4.3 `diff(pair) -> ComparisonResult`.  If
either side is absent the status is MISSING_FROM_TARGET or TARGET_ONLY
with an empty differences list; otherwise the compared fields determine
MATCH (no diffs) or MISMATCH. -/
def diffPair (cfg : Config) (mp : MatchPair) : ComparisonResult :=
  match mp.sourceProduct, mp.targetProduct with
  | some s, some t =>
    let ds := fieldDiffs cfg s t
    { productId := s.identifier, name := s.name,
      status := if ds.isEmpty then .MATCH else .MISMATCH,
      differences := ds, targetUrl := none }
  | some s, none =>
    { productId := s.identifier, name := s.name, status := .MISSING_FROM_TARGET,
      differences := [], targetUrl := none }
  | none, some t =>
    { productId := t.identifier, name := t.name, status := .TARGET_ONLY,
      differences := [], targetUrl := none }
  | none, none =>
    { productId := none, name := "", status := .TARGET_ONLY,
      differences := [], targetUrl := none }

/-- C3: for every MatchPair with both sides present, the Differ returns
MATCH exactly when its differences list is empty (no compared field —
name, price, description — differs), and MISMATCH otherwise. -/
theorem diffPair_match_iff (cfg : Config) (mp : MatchPair)
    (s t : CanonicalProduct)
    (hs : mp.sourceProduct = some s) (ht : mp.targetProduct = some t) :
    ((diffPair cfg mp).status = CompStatus.MATCH ↔ (diffPair cfg mp).differences = []) ∧
    ((diffPair cfg mp).status = CompStatus.MISMATCH ↔ (diffPair cfg mp).differences ≠ []) := by
  cases hd : fieldDiffs cfg s t <;>
    simp [diffPair, hs, ht, hd]

/-- C3 witness: at a concrete both-sided pair with equal sides, the
Differ reports MATCH and an empty differences list. -/
theorem diffPair_match_iff_witness :
    (diffPair defaultConfig
        ⟨some sampleTarget, some sampleTarget, .NORMALIZED_NAME, 1⟩).status =
          CompStatus.MATCH ↔
      (diffPair defaultConfig
        ⟨some sampleTarget, some sampleTarget, .NORMALIZED_NAME, 1⟩).differences = [] :=
  (diffPair_match_iff defaultConfig
    ⟨some sampleTarget, some sampleTarget, .NORMALIZED_NAME, 1⟩
    sampleTarget sampleTarget rfl rfl).1

/-- Modelled from the spec: §4.5 the report summary — counts per status
plus `totalSourceProducts` (size of the source set before matching). -/
structure Summary where
  matchCount : Nat
  mismatchCount : Nat
  missingFromTargetCount : Nat
  targetOnlyCount : Nat
  totalSourceProducts : Nat
deriving DecidableEq, Repr

/-- Modelled from the spec: §4.5 `assemble(results) -> {summary, results}`. -/
structure Report where
  summary : Summary
  results : List ComparisonResult
deriving DecidableEq, Repr

/-- The number of results carrying a given status. -/
def countStatus (rs : List ComparisonResult) (st : CompStatus) : Nat :=
  (rs.filter (fun r => decide (r.status = st))).length

/-- Modelled from the spec: §4.5 the Report Assembler — `summary` gathers
the per-status counts and `totalSourceProducts`; `results` preserves the
original match order. -/
def assemble (totalSource : Nat) (rs : List ComparisonResult) : Report :=
  { summary :=
      { matchCount := countStatus rs .MATCH
        mismatchCount := countStatus rs .MISMATCH
        missingFromTargetCount := countStatus rs .MISSING_FROM_TARGET
        targetOnlyCount := countStatus rs .TARGET_ONLY
        totalSourceProducts := totalSource }
    results := rs }

theorem countStatus_total (rs : List ComparisonResult) :
    countStatus rs .MATCH + countStatus rs .MISMATCH +
      countStatus rs .MISSING_FROM_TARGET + countStatus rs .TARGET_ONLY = rs.length := by
  induction rs with
  | nil => simp [countStatus]
  | cons r rs ih =>
    simp only [countStatus] at *
    simp only [List.filter_cons]
    cases h : r.status <;> simp [h] <;> omega

/-- C7: the assembled summary carries one count per status — each equal
to the number of results with that status — plus `totalSourceProducts`
equal to the size of the source set before matching; in particular the
per-status counts sum to the length of the results list. -/
theorem assemble_summary (n : Nat) (rs : List ComparisonResult) :
    (assemble n rs).summary.matchCount = countStatus rs .MATCH ∧
    (assemble n rs).summary.mismatchCount = countStatus rs .MISMATCH ∧
    (assemble n rs).summary.missingFromTargetCount = countStatus rs .MISSING_FROM_TARGET ∧
    (assemble n rs).summary.targetOnlyCount = countStatus rs .TARGET_ONLY ∧
    (assemble n rs).summary.totalSourceProducts = n ∧
    (assemble n rs).results = rs ∧
    (assemble n rs).summary.matchCount + (assemble n rs).summary.mismatchCount +
      (assemble n rs).summary.missingFromTargetCount + (assemble n rs).summary.targetOnlyCount =
      rs.length := by
  refine ⟨rfl, rfl, rfl, rfl, rfl, rfl, ?_⟩
  exact countStatus_total rs

/-- Modelled from the spec: §2 the full reconciliation pipeline — match,
diff each pair, assemble the report.  Pure and side-effect-free. -/
def reconcile (cfg : Config) (ss ts : List CanonicalProduct) : Report :=
  assemble ss.length ((matchCatalogs cfg ss ts).map (diffPair cfg))

/-- C2: the reconciliation is deterministic — two runs on identical
source and target sets with identical configuration produce identical
ordered results (same matches, classifications and tie-breaks); the
pipeline is a pure function of its inputs. -/
theorem reconcile_deterministic (cfg : Config) (ss ts : List CanonicalProduct)
    (r1 r2 : Report)
    (h1 : r1 = reconcile cfg ss ts) (h2 : r2 = reconcile cfg ss ts) :
    r1 = r2 :=
  h1.trans h2.symm

/-- C2 witness: two runs at a concrete input agree. -/
theorem reconcile_deterministic_witness :
    reconcile defaultConfig [sampleTarget] [] = reconcile defaultConfig [sampleTarget] [] :=
  reconcile_deterministic defaultConfig [sampleTarget] []
    (reconcile defaultConfig [sampleTarget] [])
    (reconcile defaultConfig [sampleTarget] []) rfl rfl

/-- Modelled from the spec: §3 ReconciliationJob statuses. -/
inductive JobStatus where
  | PENDING
  | RUNNING
  | COMPLETED
  | FAILED
  | CANCELLED
deriving DecidableEq, Repr

/-- Modelled from the spec: §3 ReconciliationJob — process-wide job state
with `processedCount`/`totalCount` for progress percentage. -/
structure ReconciliationJob where
  status : JobStatus
  processedCount : Nat
  totalCount : Nat
deriving DecidableEq, Repr

/-- Modelled from the spec: §4.4 the Job Orchestrator (backend, not under
src/) processes the source set in chunks, updating `processedCount` after
each chunk, never exceeding `totalCount`; only a RUNNING job advances. -/
def stepJob (chunk : Nat) (j : ReconciliationJob) : ReconciliationJob :=
  match j.status with
  | .RUNNING =>
    let c := min (j.processedCount + chunk) j.totalCount
    { j with processedCount := c,
             status := if c = j.totalCount then .COMPLETED else .RUNNING }
  | _ => j

/-- Modelled from the spec: the orchestrator's chunk loop — `n` completed
chunk steps of one job. -/
def runChunks (chunk : Nat) : Nat → ReconciliationJob → ReconciliationJob
  | 0, j => j
  | n + 1, j => runChunks chunk n (stepJob chunk j)

/-- Modelled from the spec: §6 `getProgress(jobId) -> {processedCount,
totalCount, status}` for a job that exists. -/
def getProgress (j : ReconciliationJob) : Nat × Nat × JobStatus :=
  (j.processedCount, j.totalCount, j.status)

theorem stepJob_invariant (c : Nat) (j : ReconciliationJob)
    (h : j.processedCount ≤ j.totalCount) :
    j.processedCount ≤ (stepJob c j).processedCount ∧
    (stepJob c j).processedCount ≤ (stepJob c j).totalCount ∧
    (stepJob c j).totalCount = j.totalCount := by
  cases hs : j.status <;> simp [stepJob, hs] <;> omega

theorem runChunks_invariant (c : Nat) : ∀ (n : Nat) (j : ReconciliationJob),
    j.processedCount ≤ j.totalCount →
    j.processedCount ≤ (runChunks c n j).processedCount ∧
    (runChunks c n j).processedCount ≤ (runChunks c n j).totalCount ∧
    (runChunks c n j).totalCount = j.totalCount := by
  intro n
  induction n with
  | zero => intro j h; exact ⟨le_refl _, h, rfl⟩
  | succ m ih =>
    intro j h
    obtain ⟨h1, h2, h3⟩ := stepJob_invariant c j h
    obtain ⟨g1, g2, g3⟩ := ih (stepJob c j) h2
    exact ⟨h1.trans g1, g2, g3.trans h3⟩

theorem runChunks_add (c a b : Nat) (j : ReconciliationJob) :
    runChunks c (a + b) j = runChunks c b (runChunks c a j) := by
  induction a generalizing j with
  | zero => simp [runChunks]
  | succ m ih =>
    have : m + 1 + b = (m + b) + 1 := by omega
    rw [this, runChunks, runChunks, ih]

/-- C4: during a single job, the `processedCount` reported by successive
`getProgress` calls (after `n` and then `m ≥ n` completed chunks) is
monotonically non-decreasing and never exceeds `totalCount`. -/
theorem getProgress_monotone (chunk : Nat) (j : ReconciliationJob)
    (hinv : j.processedCount ≤ j.totalCount) (n m : Nat) (hnm : n ≤ m) :
    (getProgress (runChunks chunk n j)).1 ≤ (getProgress (runChunks chunk m j)).1 ∧
    (getProgress (runChunks chunk n j)).1 ≤ j.totalCount := by
  obtain ⟨h1, h2, h3⟩ := runChunks_invariant chunk n j hinv
  obtain ⟨k, hk⟩ := Nat.exists_eq_add_of_le hnm
  subst hk
  rw [runChunks_add]
  obtain ⟨g1, g2, g3⟩ :=
    runChunks_invariant chunk k (runChunks chunk n j) h2
  exact ⟨g1, h2.trans_eq h3⟩

/-- C4 witness: a concrete running job (total 5, chunk 2) reports
non-decreasing progress from chunk 1 to chunk 3, bounded by the total. -/
theorem getProgress_monotone_witness :
    (getProgress (runChunks 2 1 ⟨.RUNNING, 0, 5⟩)).1 ≤
      (getProgress (runChunks 2 3 ⟨.RUNNING, 0, 5⟩)).1 ∧
    (getProgress (runChunks 2 1 ⟨.RUNNING, 0, 5⟩)).1 ≤
      (⟨.RUNNING, 0, 5⟩ : ReconciliationJob).totalCount :=
  getProgress_monotone 2 ⟨.RUNNING, 0, 5⟩ (by decide) 1 3 (by decide)

namespace csvApi

/-- Embedded from `src/frontend/src/services/csvApi.js`: the observable
parts of a fetch Response consumed by the progress endpoints — `ok`, the
HTTP `status`, the parsed JSON body on success, and the `error` field of
the parsed error body on failure. -/
structure Response (α : Type) where
  ok : Bool
  status : Nat
  body : α
  errorField : Option String

/-- Embedded from `csvApi.getCompareProgress` (csvApi.js lines 125-137):
a non-ok response with status 404 returns `null` (no progress data); any
other non-ok response throws `error.error || 'Failed to get progress'`;
an ok response returns the parsed body. -/
def getCompareProgress {α : Type} (r : Response α) : Except String (Option α) :=
  if r.ok then .ok (some r.body)
  else if r.status = 404 then .ok none
  else .error (r.errorField.getD "Failed to get progress")

/-- Embedded from `csvApi.getUploadProgress` (csvApi.js lines 32-44):
identical handling — 404 yields `null`, other failures throw. -/
def getUploadProgress {α : Type} (r : Response α) : Except String (Option α) :=
  if r.ok then .ok (some r.body)
  else if r.status = 404 then .ok none
  else .error (r.errorField.getD "Failed to get progress")

/-- C5: a progress query answered 404 (unknown job) returns the typed
NotFound outcome — both client progress getters return `null` rather than
throwing — so no exception reaches the caller for an unknown job id. -/
theorem progress_notFound_typed {α : Type} (r : Response α)
    (hok : r.ok = false) (h404 : r.status = 404) :
    getCompareProgress r = .ok none ∧ getUploadProgress r = .ok none := by
  simp [getCompareProgress, getUploadProgress, hok, h404]

/-- C5 witness: a concrete 404 response yields `null` from both getters. -/
theorem progress_notFound_typed_witness :
    getCompareProgress (⟨false, 404, (), none⟩ : Response Unit) = .ok none ∧
    getUploadProgress (⟨false, 404, (), none⟩ : Response Unit) = .ok none :=
  progress_notFound_typed (⟨false, 404, (), none⟩ : Response Unit) rfl rfl

/-- Embedded from `csvApi.compareWithProgress` (csvApi.js lines 191-211):
the fields of the comparison request that determine the progress-tracking
identifier. -/
structure CompareRequest where
  source_type : String
  filename : String

/-- Embedded from csvApi.js line 194:
`const identifier = data.source_type === 'csv' ? data.filename : 'sf'`. -/
def progressIdentifier (data : CompareRequest) : String :=
  if data.source_type = "csv" then data.filename else "sf"

/-- C6: the job-tracking identifier is the uploaded filename for a CSV
comparison and the fixed sentinel `"sf"` for a Salesforce (CRM)
comparison. -/
theorem compare_identifier (f : String) :
    progressIdentifier { source_type := "csv", filename := f } = f ∧
    progressIdentifier { source_type := "salesforce", filename := f } = "sf" := by
  constructor
  · simp [progressIdentifier]
  · simp [progressIdentifier]

/-- Embedded from csvApi.js: the shape of compare/upload progress data
inspected by `pollProgress` — the `completed` flag and the `current`
percentage. -/
structure ProgressData where
  completed : Bool
  current : Nat
deriving DecidableEq, Repr

/-- An invocation of the `pollProgress` callback. -/
inductive CallbackArg where
  | progress (p : ProgressData)
  | errorMsg (m : String)
deriving DecidableEq, Repr

/-- The externally visible effect of one poll iteration: the callback
invocations it performs and whether another poll is scheduled. -/
structure PollEffect where
  callbacks : List CallbackArg
  reschedule : Bool
deriving DecidableEq, Repr

/-- Embedded from `csvApi.pollProgress` (csvApi.js lines 142-168): one
poll iteration.  A thrown fetch error invokes the callback once with
`{ error }` and stops polling; a `null` progress body does nothing;
otherwise the callback receives the data and another poll is scheduled
iff `!progressData.completed && progressData.current < 100`. -/
def pollStep (outcome : Except String (Option ProgressData)) : PollEffect :=
  match outcome with
  | .error e => { callbacks := [.errorMsg e], reschedule := false }
  | .ok none => { callbacks := [], reschedule := false }
  | .ok (some p) =>
    { callbacks := [.progress p],
      reschedule := !p.completed && decide (p.current < 100) }

/-- C8: after a progress response, another poll is scheduled iff the data
is non-null with a falsy `completed` and `current < 100`; a thrown fetch
invokes the callback exactly once with the error message and schedules no
further poll. -/
theorem pollStep_spec :
    (∀ o, (pollStep o).reschedule = true ↔
      ∃ p, o = .ok (some p) ∧ p.completed = false ∧ p.current < 100) ∧
    (∀ e, pollStep (.error e) =
      { callbacks := [.errorMsg e], reschedule := false }) := by
  constructor
  · intro o
    match o with
    | .error e => simp [pollStep]
    | .ok none => simp [pollStep]
    | .ok (some p) => simp [pollStep]
  · intro e
    rfl

end csvApi

namespace salesforceApi

/-- Embedded from `salesforceApi.getBatchProducts` (salesforceApi.js
lines 188-224): the while-loop body, indexed by remaining fuel.  `k` is
the request number (offset / batchSize), `acc` the products accumulated
so far.  `.error` models a thrown request (the catch breaks the loop);
`some` is the list the JS loop returns; `none` means the JS loop has not
exited within `fuel` iterations. -/
def batchLoop {α : Type} (batchSize : Nat) (responses : Nat → Except Unit (List α)) :
    Nat → Nat → List α → Option (List α)
  | 0, _, _ => none
  | fuel + 1, k, acc =>
    match responses k with
    | .error _ => some acc
    | .ok products =>
      let acc2 := acc ++ products
      if products.length = batchSize then
        if 10000 < acc2.length then some acc2
        else batchLoop batchSize responses fuel (k + 1) acc2
      else some acc2

/-- Embedded from `salesforceApi.getBatchProducts`: the full loop starting
from offset 0 with no accumulated products.  Fuel 10002 covers every run
that the 10000-product cap can allow when `batchSize ≥ 1`. -/
def getBatchProducts {α : Type} (batchSize : Nat)
    (responses : Nat → Except Unit (List α)) : Option (List α) :=
  batchLoop batchSize responses 10002 0 []

theorem batchLoop_oversized_step {α : Type} (batchSize fuel k : Nat)
    (responses : Nat → Except Unit (List α)) (acc ps : List α)
    (hr : responses k = .ok ps) (hb : ps.length ≠ batchSize) :
    batchLoop batchSize responses (fuel + 1) k acc = some (acc ++ ps) := by
  rw [batchLoop, hr]
  simp [hb]

theorem batchLoop_error_step {α : Type} (batchSize fuel k : Nat)
    (responses : Nat → Except Unit (List α)) (acc : List α) (e : Unit)
    (hr : responses k = .error e) :
    batchLoop batchSize responses (fuel + 1) k acc = some acc := by
  rw [batchLoop, hr]

theorem batchLoop_cap_step {α : Type} (batchSize fuel k : Nat)
    (responses : Nat → Except Unit (List α)) (acc ps : List α)
    (hr : responses k = .ok ps) (hb : ps.length = batchSize)
    (hover : 10000 < (acc ++ ps).length) :
    batchLoop batchSize responses (fuel + 1) k acc = some (acc ++ ps) := by
  rw [List.length_append, hb] at hover
  rw [batchLoop, hr]
  simp [hb, hover]

theorem batchLoop_cont_step {α : Type} (batchSize fuel k : Nat)
    (responses : Nat → Except Unit (List α)) (acc ps : List α)
    (hr : responses k = .ok ps) (hb : ps.length = batchSize)
    (hover : ¬ 10000 < (acc ++ ps).length) :
    batchLoop batchSize responses (fuel + 1) k acc =
      batchLoop batchSize responses fuel (k + 1) (acc ++ ps) := by
  rw [List.length_append, hb] at hover
  rw [batchLoop, hr]
  simp [hb, hover]

theorem batchLoop_some {α : Type} (batchSize : Nat)
    (responses : Nat → Except Unit (List α))
    (hbs : 1 ≤ batchSize)
    (hresp : ∀ k ps, responses k = .ok ps → ps.length ≤ batchSize) :
    ∀ (fuel k : Nat) (acc : List α), acc.length ≤ 10000 →
      10000 < acc.length + fuel * batchSize →
      ∃ out, batchLoop batchSize responses fuel k acc = some out ∧
        out.length ≤ 10000 + batchSize := by
  intro fuel
  induction fuel with
  | zero =>
    intro k acc h1 h2
    exfalso
    omega
  | succ f ih =>
    intro k acc h1 h2
    rw [Nat.succ_mul] at h2
    cases hr : responses k with
    | error e =>
      rw [batchLoop_error_step batchSize f k responses acc e hr]
      exact ⟨acc, rfl, by omega⟩
    | ok ps =>
      have hlen := hresp k ps hr
      by_cases hb : ps.length = batchSize
      · by_cases hover : 10000 < (acc ++ ps).length
        · rw [batchLoop_cap_step batchSize f k responses acc ps hr hb hover]
          refine ⟨acc ++ ps, rfl, ?_⟩
          rw [List.length_append]
          omega
        · rw [batchLoop_cont_step batchSize f k responses acc ps hr hb hover]
          rw [List.length_append] at hover
          apply ih (k + 1) (acc ++ ps) <;> rw [List.length_append] <;> omega
      · rw [batchLoop_oversized_step batchSize f k responses acc ps hr hb]
        refine ⟨acc ++ ps, rfl, ?_⟩
        rw [List.length_append]
        omega

/-- C9 (amended): for every `batchSize ≥ 1` and every response sequence
whose successful batches contain at most `batchSize` products (the server
honours the requested limit), `getBatchProducts` terminates — the loop
exits via a short batch, a thrown request, or the 10000-product cap —
and returns at most `10000 + batchSize` products. -/
theorem getBatchProducts_bounded {α : Type} (batchSize : Nat)
    (responses : Nat → Except Unit (List α))
    (hbs : 1 ≤ batchSize)
    (hresp : ∀ k ps, responses k = .ok ps → ps.length ≤ batchSize) :
    (getBatchProducts batchSize responses).isSome = true ∧
    ((getBatchProducts batchSize responses).getD []).length ≤ 10000 + batchSize := by
  have hfuel : 10000 < ([] : List α).length + 10002 * batchSize := by
    have : 10002 * 1 ≤ 10002 * batchSize := Nat.mul_le_mul_left _ hbs
    simp only [List.length_nil]
    omega
  obtain ⟨out, hout, hlen⟩ :=
    batchLoop_some batchSize responses hbs hresp 10002 0 [] (by simp) hfuel
  rw [getBatchProducts, hout]
  exact ⟨rfl, hlen⟩

/-- C9 witness: with `batchSize = 1` and a server that immediately
returns an empty batch, the loop exits at once with no products. -/
theorem getBatchProducts_bounded_witness :
    (getBatchProducts 1 (fun _ => Except.ok ([] : List Unit))).isSome = true ∧
    ((getBatchProducts 1 (fun _ => Except.ok ([] : List Unit))).getD []).length ≤ 10000 + 1 :=
  getBatchProducts_bounded 1 (fun _ => Except.ok ([] : List Unit)) (by decide)
    (fun k ps h => by
      have h2 : ([] : List Unit) = ps := Except.ok.inj h
      rw [← h2]
      simp)

/-- A server that answers every request with one oversized batch of 10101
products. -/
def oversizedResponses : Nat → Except Unit (List Unit) :=
  fun _ => Except.ok (List.replicate 10101 ())

/-- C9 counterexample: the claimed bound fails as stated — with
`batchSize = 100` and a first response of 10101 products, the loop
returns all 10101 of them, exceeding `10000 + batchSize = 10100`. -/
theorem getBatchProducts_bound_fails :
    getBatchProducts 100 oversizedResponses = some (List.replicate 10101 ()) ∧
    ¬ ((List.replicate 10101 ()).length ≤ 10000 + 100) := by
  constructor
  · have h :=
      batchLoop_oversized_step 100 10001 0 oversizedResponses []
        (List.replicate 10101 ()) rfl (by rw [List.length_replicate]; omega)
    rw [getBatchProducts]
    exact h
  · rw [List.length_replicate]
    omega

end salesforceApi

namespace ComparisonResults

/-- Embedded from `src/frontend/src/components/ComparisonResults.js`: the
fields of one result row used by the filter and the table. -/
structure ResultRow where
  product_id : Option String
  name : String
  status : String
  differences : List String
  krowne_url : Option String
deriving DecidableEq, Repr

/-- Embedded from ComparisonResults.js line 7: `const itemsPerPage = 20`. -/
def itemsPerPage : Nat := 20

/-- Embedded from ComparisonResults.js lines 9-12: keep every row when the
filter is `'all'`, otherwise keep the rows whose `status` equals the
selected filter. -/
def filteredResults (filt : String) (rs : List ResultRow) : List ResultRow :=
  rs.filter (fun r => if filt = "all" then true else r.status == filt)

/-- Embedded from ComparisonResults.js lines 14-17:
`filteredResults.slice((currentPage-1)*itemsPerPage,
currentPage*itemsPerPage)`. -/
def paginatedResults (filt : String) (rs : List ResultRow) (currentPage : Nat) :
    List ResultRow :=
  ((filteredResults filt rs).drop ((currentPage - 1) * itemsPerPage)).take itemsPerPage

/-- Embedded from ComparisonResults.js line 19:
`Math.ceil(filteredResults.length / itemsPerPage)`. -/
def totalPages (filt : String) (rs : List ResultRow) : Nat :=
  ((filteredResults filt rs).length + itemsPerPage - 1) / itemsPerPage

/-- Embedded from ComparisonResults.js line 187: the Previous handler,
`setCurrentPage(prev => Math.max(prev - 1, 1))`. -/
def prevPageClick (p : Nat) : Nat := max (p - 1) 1

/-- Embedded from ComparisonResults.js line 194: the Next handler,
`setCurrentPage(prev => Math.min(prev + 1, totalPages))`. -/
def nextPageClick (p tp : Nat) : Nat := min (p + 1) tp

/-- C10: for every filter and valid current page `p`, the displayed rows
are exactly the contiguous slice `[(p-1)*20, p*20)` of the status-filtered
list (at most 20 rows; filtering preserves the original order, being a
sublist), and both pagination handlers keep the page within
`[1, ceil(|filteredResults| / 20)]`. -/
theorem pagination_spec (filt : String) (rs : List ResultRow) (p : Nat)
    (hp1 : 1 ≤ p) (hp2 : p ≤ totalPages filt rs) :
    paginatedResults filt rs p =
      ((filteredResults filt rs).drop ((p - 1) * itemsPerPage)).take itemsPerPage ∧
    (paginatedResults filt rs p).length ≤ itemsPerPage ∧
    List.Sublist (filteredResults filt rs) rs ∧
    1 ≤ prevPageClick p ∧ prevPageClick p ≤ totalPages filt rs ∧
    1 ≤ nextPageClick p (totalPages filt rs) ∧
    nextPageClick p (totalPages filt rs) ≤ totalPages filt rs := by
  refine ⟨rfl, ?_, ?_, ?_, ?_, ?_, ?_⟩
  · rw [paginatedResults]
    exact List.length_take_le _ _
  · exact List.filter_sublist rs
  · exact Nat.le_max_right _ _
  · rw [prevPageClick]
    exact Nat.max_le.mpr ⟨by omega, by omega⟩
  · rw [nextPageClick]
    exact Nat.le_min.mpr ⟨by omega, by omega⟩
  · exact Nat.min_le_right _ _

/-- C10 witness: one row, filter `'all'`, page 1. -/
theorem pagination_spec_witness :
    paginatedResults "all" [⟨none, "a", "match", [], none⟩] 1 =
      ((filteredResults "all" [⟨none, "a", "match", [], none⟩]).drop
        ((1 - 1) * itemsPerPage)).take itemsPerPage ∧
    (paginatedResults "all" [⟨none, "a", "match", [], none⟩] 1).length ≤ itemsPerPage ∧
    List.Sublist (filteredResults "all" [⟨none, "a", "match", [], none⟩])
      [⟨none, "a", "match", [], none⟩] ∧
    1 ≤ prevPageClick 1 ∧
    prevPageClick 1 ≤ totalPages "all" [⟨none, "a", "match", [], none⟩] ∧
    1 ≤ nextPageClick 1 (totalPages "all" [⟨none, "a", "match", [], none⟩]) ∧
    nextPageClick 1 (totalPages "all" [⟨none, "a", "match", [], none⟩]) ≤
      totalPages "all" [⟨none, "a", "match", [], none⟩] :=
  pagination_spec "all" [⟨none, "a", "match", [], none⟩] 1 (by decide) (by decide)

end ComparisonResults

end KrowneSync
